import Mathlib

/-!
Verification of the GLS payment backend (Express/PostgreSQL routes) against
its natural-language specification.  The route handlers are shallowly
embedded as pure functions over an explicit database state: dates are
integer day counts, monetary amounts are integers, SQL UPDATE/DELETE
statements become List.map / List.filter over the stored rows, and thrown
errors become Except values.
-/

namespace GLS

/-- An inward (payable) bill row, from the inward_bills table used by
proposal.routes.js and dashboard.routes.js. -/
structure InwardBill where
  id : Nat
  vendor_id : Nat
  bill_number : String
  invoice_date : Int
  receiving_date : Int
  amount : Int
  paid_amount : Int
  credit_days : Int
  due_date : Int
  status : String
  payment_status : String
  version : Nat
  cancel_reason : Option String
deriving Repr, DecidableEq

/-- An outward (receivable) bill row, from the outward_bills table used by
customer.routes.js. -/
structure OutwardBill where
  id : Nat
  customer_id : Nat
  amount : Int
  collected_amount : Int
  due_date : Int
  status : String
deriving Repr, DecidableEq

/-- A proposal row from the proposals table. -/
structure Proposal where
  id : Nat
  status : String
  created_by : Nat
  total_amount : Int
deriving Repr, DecidableEq

/-- A proposal_items row: one payable bill inside a proposal, with the
accounts track, the owner track and the composite status field. -/
structure ProposalItem where
  id : Nat
  proposal_id : Nat
  bill_id : Nat
  proposed_amount : Int
  accounts_status : String
  accounts_amount : Int
  owner_status : String
  owner_amount : Int
  status : String
deriving Repr, DecidableEq

/-- A payments row: a settlement batch generated from a proposal. -/
structure Payment where
  id : Nat
  proposal_id : Nat
  total_amount : Int
  bank_account_id : Nat
  status : String
deriving Repr, DecidableEq

/-- A payment_details row: one bill inside a payment batch, with its bank
transfer reference (utr_number) once entered. -/
structure PaymentDetail where
  id : Nat
  payment_id : Nat
  bill_id : Nat
  proposal_item_id : Option Nat
  amount : Int
  utr_number : Option String
  status : String
deriving Repr, DecidableEq

/-- An authenticated principal, as supplied by auth.middleware.js. -/
structure User where
  id : Nat
  role : String
deriving Repr, DecidableEq

/-- The ledger store: the tables the verified routes read and write. -/
structure DB where
  bills : List InwardBill
  outward : List OutwardBill
  proposals : List Proposal
  items : List ProposalItem
  payments : List Payment
  details : List PaymentDetail
deriving Repr, DecidableEq

/-- Row identifiers of a table are pairwise distinct (primary-key
uniqueness, enforced by the storage layer). -/
def keysNodup {α : Type} (key : α → Nat) (l : List α) : Prop :=
  (l.map key).Nodup

instance {α : Type} (key : α → Nat) (l : List α) : Decidable (keysNodup key l) := by
  unfold keysNodup
  infer_instance

theorem mem_eq_of_keysNodup {α : Type} (key : α → Nat) {l : List α}
    (h : keysNodup key l) {a b : α} (ha : a ∈ l) (hb : b ∈ l)
    (hk : key a = key b) : a = b := by
  induction l with
  | nil => cases ha
  | cons x xs ih =>
    unfold keysNodup at h
    simp only [List.map_cons, List.nodup_cons] at h
    rcases List.mem_cons.mp ha with rfl | ha2
    · rcases List.mem_cons.mp hb with rfl | hb2
      · rfl
      · exact absurd (hk ▸ List.mem_map_of_mem key hb2) h.1
    · rcases List.mem_cons.mp hb with rfl | hb2
      · exact absurd (hk ▸ List.mem_map_of_mem key ha2) h.1
      · exact ih h.2 ha2 hb2

theorem find?_key_eq_some {α : Type} (key : α → Nat) {l : List α}
    (h : keysNodup key l) {a : α} (ha : a ∈ l) (k : Nat) (hk : key a = k) :
    l.find? (fun x => key x == k) = some a := by
  induction l with
  | nil => cases ha
  | cons x xs ih =>
    unfold keysNodup at h
    simp only [List.map_cons, List.nodup_cons] at h
    rcases List.mem_cons.mp ha with rfl | ha2
    · simp [List.find?, hk]
    · rw [List.find?]
      have hxk : (key x == k) = false := by
        simp only [beq_eq_false_iff_ne, ne_eq]
        intro hcontra
        exact h.1 (hcontra ▸ hk ▸ List.mem_map_of_mem key ha2)
      rw [hxk]
      exact ih h.2 ha2

/-! ## Inward-bill operations (proposal.routes.js, inward section) -/

/-- POST /api/inward (proposal.routes.js:662): create an inward bill.  The
handler computes due_date = invoice_date + credit_days via JS Date day
arithmetic.  The INSERT names no status columns, so the new row takes the
storage defaults (spec section 3: status active, payment_status open,
paid_amount 0, version 0). -/
def createInwardBill (db : DB) (userId newId vendor_id : Nat)
    (bill_number : String) (invoice_date receiving_date amount credit_days : Int) :
    DB × InwardBill :=
  let dueDate := invoice_date + credit_days
  let b : InwardBill :=
    { id := newId, vendor_id := vendor_id, bill_number := bill_number,
      invoice_date := invoice_date, receiving_date := receiving_date,
      amount := amount, paid_amount := 0, credit_days := credit_days,
      due_date := dueDate, status := "active", payment_status := "open",
      version := 0, cancel_reason := none }
  ({ db with bills := db.bills ++ [b] }, b)

/-- The optional fields of a PUT /api/inward/:id request body that the
embedding tracks (the allowedFields list of the handler, restricted to the
fields the verified claims read). -/
structure UpdateBillReq where
  bill_number : Option String
  invoice_date : Option Int
  receiving_date : Option Int
  amount : Option Int
  credit_days : Option Int
deriving Repr, DecidableEq

/-- JS truthiness of the credit_days field of the request body: the handler
guards the due-date recomputation with `updates.invoice_date ||
updates.credit_days`, under which the number 0 is falsy. -/
def jsTruthyInt : Option Int → Bool
  | none => false
  | some v => v != 0

/-- PUT /api/inward/:id (proposal.routes.js:697): partial update of an
inward bill.  Fails on a cancelled or fully paid bill; recomputes due_date
only when the JS condition `updates.invoice_date || updates.credit_days`
is truthy; increments the version counter. -/
def updateInwardBill (db : DB) (billId : Nat) (upd : UpdateBillReq) :
    Except String DB :=
  match db.bills.find? (fun b => b.id == billId) with
  | none => .error "Bill not found"
  | some b =>
    if b.status == "cancelled" then .error "Cannot update cancelled bill"
    else if b.payment_status == "paid" then .error "Cannot update fully paid bill"
    else
      let hasField := upd.bill_number.isSome || upd.invoice_date.isSome ||
        upd.receiving_date.isSome || upd.amount.isSome || upd.credit_days.isSome
      if !hasField then .error "No valid fields to update"
      else
        let recompute := upd.invoice_date.isSome || jsTruthyInt upd.credit_days
        let newInvoice := upd.invoice_date.getD b.invoice_date
        let newCredit := upd.credit_days.getD b.credit_days
        let b2 : InwardBill :=
          { b with
            bill_number := upd.bill_number.getD b.bill_number,
            invoice_date := newInvoice,
            receiving_date := upd.receiving_date.getD b.receiving_date,
            amount := upd.amount.getD b.amount,
            credit_days := newCredit,
            due_date := if recompute then newInvoice + newCredit else b.due_date,
            version := b.version + 1 }
        .ok { db with bills := db.bills.map (fun x => if x.id == billId then b2 else x) }

/-- DELETE /api/inward/:id (proposal.routes.js:768): cancel an inward bill.
Requires a reason; fails when paid_amount > 0. -/
def cancelInwardBill (db : DB) (userId billId : Nat) (reason : String) :
    Except String DB :=
  if reason == "" then .error "Cancellation reason is required"
  else
    match db.bills.find? (fun b => b.id == billId) with
    | none => .error "Bill not found"
    | some b =>
      if b.paid_amount > 0 then .error "Cannot cancel bill with payments"
      else .ok { db with bills := db.bills.map (fun x =>
        if x.id == billId then { x with status := "cancelled", cancel_reason := some reason } else x) }

/-! ## Proposal workflow (proposal.routes.js) -/

/-- POST /api/proposals/:id/submit (proposal.routes.js:228): the route is
gated by authorize(purchase, owner); the UPDATE matches only a draft
proposal whose created_by is the caller, and an empty row set yields the
error response. -/
def submitProposal (db : DB) (user : User) (pid : Nat) : Except String DB :=
  if !(user.role == "purchase" || user.role == "owner") then .error "Access denied"
  else
    let match_ := fun (p : Proposal) =>
      p.id == pid && p.status == "draft" && p.created_by == user.id
    if db.proposals.any match_ then
      .ok { db with proposals := db.proposals.map (fun p =>
        if match_ p then { p with status := "submitted" } else p) }
    else .error "Cannot submit this proposal"

/-- One element of the items array of an accounts-action or owner-action
request body. -/
structure ActionReq where
  item_id : Nat
  action : String
  amount : Int
  reason : String
deriving Repr, DecidableEq

/-- A single accounts decision applied to the proposal_items rows, from the
loop body of POST /api/proposals/:id/accounts-action: approve, hold and
reject map to accounts_status approved, held, pending and composite status
accounts_approved, accounts_held, proposed. -/
def accountsApply (items : List ProposalItem) (r : ActionReq) : List ProposalItem :=
  let accSt := if r.action == "approve" then "approved"
    else if r.action == "hold" then "held" else "pending"
  let itSt := if r.action == "approve" then "accounts_approved"
    else if r.action == "hold" then "accounts_held" else "proposed"
  items.map (fun pi => if pi.id == r.item_id then
    { pi with accounts_status := accSt, accounts_amount := r.amount, status := itSt } else pi)

/-- POST /api/proposals/:id/accounts-action (proposal.routes.js:247): apply
every decision, then set the proposal status to under_review.  An invalid
action throws inside the transaction, which rolls the whole batch back, so
the embedding checks all actions up front. -/
def accountsAction (db : DB) (uid pid : Nat) (reqs : List ActionReq) :
    Except String DB :=
  if reqs.any (fun r => !(r.action == "approve" || r.action == "hold" || r.action == "reject")) then
    .error "Invalid action"
  else
    .ok { db with
      items := reqs.foldl accountsApply db.items,
      proposals := db.proposals.map (fun p =>
        if p.id == pid then { p with status := "under_review" } else p) }

/-- A single owner decision applied to the proposal_items rows, from the
loop body of POST /api/proposals/:id/owner-action: approve, defer and
reject map to owner_status approved, deferred, rejected; the composite
status becomes owner_approved or owner_rejected, and a defer is immediately
overwritten to carry_forward by the follow-up UPDATE. -/
def ownerApply (items : List ProposalItem) (r : ActionReq) : List ProposalItem :=
  let ownSt := if r.action == "approve" then "approved"
    else if r.action == "defer" then "deferred" else "rejected"
  let itSt0 := if r.action == "approve" then "owner_approved"
    else if r.action == "defer" then "owner_deferred" else "owner_rejected"
  let itSt := if r.action == "defer" then "carry_forward" else itSt0
  items.map (fun pi => if pi.id == r.item_id then
    { pi with owner_status := ownSt, owner_amount := r.amount, status := itSt } else pi)

/-- The proposal status the owner-action handler computes from the flags
hasApproved and hasDeferred collected over the request items. -/
def ownerNewStatus (reqs : List ActionReq) : String :=
  let hasApproved := reqs.any (fun r => r.action == "approve")
  let hasDeferred := reqs.any (fun r => r.action == "defer")
  if hasApproved && !hasDeferred then "approved"
  else if hasApproved && hasDeferred then "partial_approved"
  else "rejected"

/-- POST /api/proposals/:id/owner-action (proposal.routes.js:286): apply
every owner decision, then set the proposal status from the hasApproved and
hasDeferred flags of this request. -/
def ownerAction (db : DB) (uid pid : Nat) (reqs : List ActionReq) :
    Except String DB :=
  if reqs.any (fun r => !(r.action == "approve" || r.action == "defer" || r.action == "reject")) then
    .error "Invalid action"
  else
    .ok { db with
      items := reqs.foldl ownerApply db.items,
      proposals := db.proposals.map (fun p =>
        if p.id == pid then { p with status := ownerNewStatus reqs } else p) }

/-- DELETE /api/proposals/:id (proposal.routes.js:421): inside one
transaction the handler first deletes every item of the proposal, then
deletes the proposal itself only if it is draft and the caller is the
creator or an owner.  The callback returns normally in both cases, and the
transaction helper (config/database.js, not under src/; per the spec it is
atomic, rolling back only on a thrown error) therefore commits.  The Bool
result is whether the proposal row was deleted (false produces the 400
response). -/
def deleteProposal (db : DB) (user : User) (pid : Nat) : Bool × DB :=
  if !(user.role == "purchase" || user.role == "owner") then (false, db)
  else
    let match_ := fun (p : Proposal) =>
      p.id == pid && p.status == "draft" && (p.created_by == user.id || user.role == "owner")
    (db.proposals.any match_,
     { db with
       items := db.items.filter (fun pi => pi.proposal_id != pid),
       proposals := db.proposals.filter (fun p => !(match_ p)) })

/-- The EXISTS subquery of GET /api/proposals/available-bills
(proposal.routes.js:69): the bill has an item attached to a proposal whose
status is outside the terminal set, with an item status outside the
terminal set. -/
def billBlocked (db : DB) (billId : Nat) : Bool :=
  db.items.any (fun pi =>
    pi.bill_id == billId &&
    db.proposals.any (fun p =>
      p.id == pi.proposal_id && !(p.status == "rejected" || p.status == "completed")) &&
    !(pi.status == "owner_rejected" || pi.status == "paid"))

/-- GET /api/proposals/available-bills (default filter): active bills, not
fully paid, with no blocking proposal item. -/
def availableBills (db : DB) : List InwardBill :=
  db.bills.filter (fun ib =>
    ib.status == "active" && ib.payment_status != "paid" && !(billBlocked db ib.id))

/-! ## Payment batch generation and UTR settlement (dashboard.routes.js,
payments section) -/

/-- The failures of POST /api/payments/create-from-proposal, named after
the two Error messages the handler throws. -/
inductive CreateErr
  | proposalNotApproved
  | noApprovedItems
deriving Repr, DecidableEq

/-- The item set of the payment batch: proposal items of the proposal with
owner_status approved, joined to their inward bill
(dashboard.routes.js:418). -/
def approvedItems (db : DB) (pid : Nat) : List ProposalItem :=
  db.items.filter (fun pi =>
    pi.proposal_id == pid && pi.owner_status == "approved" &&
    db.bills.any (fun b => b.id == pi.bill_id))

/-- The payment_details INSERT loop of create-from-proposal: one detail per
approved item, carrying the item's owner_amount, with fresh row ids
assigned by the storage layer (modelled as consecutive numbers from
did0). -/
def mkDetails (payId did0 : Nat) : List ProposalItem → List PaymentDetail
  | [] => []
  | pi :: rest =>
    { id := did0, payment_id := payId, bill_id := pi.bill_id,
      proposal_item_id := some pi.id, amount := pi.owner_amount,
      utr_number := none, status := "pending" } :: mkDetails payId (did0 + 1) rest

/-- POST /api/payments/create-from-proposal (dashboard.routes.js:399):
require the proposal to be approved or partial_approved, collect the
owner-approved items, fail when none exist, create one payment whose
total_amount is the sum of the items' owner_amount, one detail per item,
and set the proposal status to completed.  The payments INSERT names no
status column, so the new row takes the storage default pending (spec
section 3). -/
def createFromProposal (db : DB) (uid pid bankAccountId newPayId newDetailId0 : Nat) :
    Except CreateErr (DB × Payment) :=
  match db.proposals.find? (fun p =>
      p.id == pid && (p.status == "approved" || p.status == "partial_approved")) with
  | none => .error .proposalNotApproved
  | some _ =>
    let items := approvedItems db pid
    if items.isEmpty then .error .noApprovedItems
    else
      let totalAmount := (items.map (fun pi => pi.owner_amount)).sum
      let pay : Payment :=
        { id := newPayId, proposal_id := pid, total_amount := totalAmount,
          bank_account_id := bankAccountId, status := "pending" }
      .ok
        ({ db with
           payments := db.payments ++ [pay],
           details := db.details ++ mkDetails newPayId newDetailId0 items,
           proposals := db.proposals.map (fun q =>
             if q.id == pid then { q with status := "completed" } else q) },
         pay)

/-- Modelled from the spec: section 7 defines the error taxonomy as kinds,
not concrete types (the handler throws untyped Error objects, and no
error-classification module exists under src/).  Completing an
already-completed proposal is listed under ConflictError; an entity not in
the required state is a PreconditionError. -/
def createFailureKind (db : DB) (pid : Nat) : String :=
  if db.proposals.any (fun p => p.id == pid && p.status == "completed")
  then "ConflictError" else "PreconditionError"

/-- One element of the details array of a POST /api/payments/:id/update-utr
request body. -/
structure UtrEntry where
  detail_id : Nat
  utr_number : Option String
deriving Repr, DecidableEq

/-- JS truthiness of the utr_number request field, as tested by
`detail.utr_number` in the handler: absent, null and the empty string are
falsy. -/
def utrTruthy : Option String → Bool
  | none => false
  | some s => s != ""

/-- The SQL predicate `utr_number IS NOT NULL AND utr_number != ''`: the
detail has a recorded UTR. -/
def hasUtr (d : PaymentDetail) : Bool :=
  match d.utr_number with
  | none => false
  | some s => s != ""

/-- The UPDATE payment_details statement of the loop body: set utr_number
and status confirmed on the row matching the requested detail id and the
payment id of the route. -/
def utrDetailUpd (did pid : Nat) (un : Option String) (x : PaymentDetail) :
    PaymentDetail :=
  if x.id == did && x.payment_id == pid then
    { x with utr_number := un, status := "confirmed" } else x

/-- The loop body of POST /api/payments/:id/update-utr: set utr_number and
status confirmed on the detail of this payment, then re-read the detail by
id alone and, when the request's utr_number is truthy, increment the linked
bill's paid_amount by the detail's amount and set the originating proposal
item's status to paid. -/
def applyUtrEntry (db : DB) (pid : Nat) (e : UtrEntry) : DB :=
  let db1 : DB := { db with
    details := db.details.map (utrDetailUpd e.detail_id pid e.utr_number) }
  match db1.details.find? (fun d => d.id == e.detail_id) with
  | none => db1
  | some d =>
    if utrTruthy e.utr_number then
      { db1 with
        bills := db1.bills.map (fun (b : InwardBill) =>
          if b.id == d.bill_id then { b with paid_amount := b.paid_amount + d.amount } else b),
        items := db1.items.map (fun (pi : ProposalItem) =>
          if d.proposal_item_id == some pi.id then { pi with status := "paid" } else pi) }
    else db1

/-- POST /api/payments/:id/update-utr (dashboard.routes.js:470): apply
every entry of the request, then count the details of the payment still
without a UTR and set the payment status to confirmed when none remain,
else processed. -/
def updateUtr (db : DB) (pid : Nat) (entries : List UtrEntry) : DB :=
  let db1 := entries.foldl (fun acc e => applyUtrEntry acc pid e) db
  let pendingCount := (db1.details.filter (fun d => d.payment_id == pid && !(hasUtr d))).length
  let newStatus := if pendingCount == 0 then "confirmed" else "processed"
  { db1 with payments := db1.payments.map (fun p =>
    if p.id == pid then { p with status := newStatus } else p) }

/-! ## Receivables ageing (customer.routes.js) -/

/-- The WHERE clause of the receivables ageing queries: bills whose status
is neither cancelled nor paid. -/
def recvActive (b : OutwardBill) : Bool :=
  !(b.status == "cancelled" || b.status == "paid")

/-- CASE condition of the current bucket: due_date on or after today. -/
def condCurrent (today due : Int) : Bool := due ≥ today

/-- CASE condition of the 1 to 15 days overdue bucket. -/
def cond1to15 (today due : Int) : Bool := due < today && due ≥ today - 15

/-- CASE condition of the 16 to 21 days overdue bucket. -/
def cond16to21 (today due : Int) : Bool := due < today - 15 && due ≥ today - 21

/-- CASE condition of the 22 to 30 days overdue bucket. -/
def cond22to30 (today due : Int) : Bool := due < today - 21 && due ≥ today - 30

/-- CASE condition of the over 30 days overdue bucket. -/
def cond30plus (today due : Int) : Bool := due < today - 30

/-- SUM(CASE WHEN cond THEN amount - collected_amount ELSE 0 END) over the
non-cancelled, non-paid outward bills. -/
def bucketSum (bills : List OutwardBill) (c : Int → Bool) : Int :=
  ((bills.filter recvActive).map (fun b =>
    if c b.due_date then b.amount - b.collected_amount else 0)).sum

/-- Total outstanding over the non-cancelled, non-paid outward bills. -/
def totalOutstanding (bills : List OutwardBill) : Int :=
  ((bills.filter recvActive).map (fun b => b.amount - b.collected_amount)).sum

/-- GET /api/outward/receivables-ageing and GET
/api/customers/:id/receivables-ageing (customer.routes.js:372 and 117):
the five bucket amounts, in report order. -/
def receivablesAgeing (bills : List OutwardBill) (today : Int) :
    Int × Int × Int × Int × Int :=
  (bucketSum bills (condCurrent today),
   bucketSum bills (cond1to15 today),
   bucketSum bills (cond16to21 today),
   bucketSum bills (cond22to30 today),
   bucketSum bills (cond30plus today))

/-! ## Concrete states used to evaluate the operations -/

/-- A state with one bill of amount 9500, one pending payment and one
pending detail of amount 9500 covering the whole bill. -/
def dbC5 : DB :=
  { bills := [{ id := 1, vendor_id := 1, bill_number := "B1", invoice_date := 0,
                receiving_date := 0, amount := 9500, paid_amount := 0,
                credit_days := 30, due_date := 30, status := "active",
                payment_status := "open", version := 0, cancel_reason := none }],
    outward := [],
    proposals := [{ id := 1, status := "completed", created_by := 5, total_amount := 10000 }],
    items := [{ id := 1, proposal_id := 1, bill_id := 1, proposed_amount := 10000,
                accounts_status := "approved", accounts_amount := 9500,
                owner_status := "approved", owner_amount := 9500,
                status := "owner_approved" }],
    payments := [{ id := 1, proposal_id := 1, total_amount := 9500,
                   bank_account_id := 1, status := "pending" }],
    details := [{ id := 1, payment_id := 1, bill_id := 1, proposal_item_id := some 1,
                  amount := 9500, utr_number := none, status := "pending" }] }

/-- Claim C5: the bill invariant 0 ≤ paid_amount ≤ amount is supposed to
hold after every operation, including repeated settlement calls on the same
payment detail.  The update-utr handler increments paid_amount
unconditionally, so settling the same detail twice pushes paid_amount to
19000 on a bill of amount 9500, violating the invariant the claim states:
the claim is right about the intent (the spec lists double-settling a
payment as a ConflictError) and the code lacks the guard. -/
theorem double_settlement_overpays_bill :
    (updateUtr (updateUtr dbC5 1 [⟨1, some "UTR1"⟩]) 1 [⟨1, some "UTR1"⟩]).bills.map
        (fun b => (b.paid_amount, b.amount)) = [(19000, 9500)] ∧
    ¬ ((19000 : Int) ≤ 9500) := by
  exact ⟨by decide, by decide⟩

/-- A state with one active bill: invoice_date 0, credit_days 30,
due_date 30. -/
def dbC7 : DB :=
  { bills := [{ id := 1, vendor_id := 1, bill_number := "B1", invoice_date := 0,
                receiving_date := 0, amount := 1000, paid_amount := 0,
                credit_days := 30, due_date := 30, status := "active",
                payment_status := "open", version := 0, cancel_reason := none }],
    outward := [], proposals := [], items := [], payments := [], details := [] }

/-- The update request that sets credit_days to 0 and nothing else. -/
def updC7 : UpdateBillReq :=
  { bill_number := none, invoice_date := none, receiving_date := none,
    amount := none, credit_days := some 0 }

/-- Claim C7: updating a bill's credit_days is supposed to recompute
due_date = invoice_date + credit_days for any credit_days in 0 to 365,
including 0.  The handler guards the recomputation with the JS truthiness
test `updates.invoice_date || updates.credit_days`, under which 0 is falsy:
updating credit_days to 0 stores credit_days = 0 but leaves due_date at the
stale value 30 instead of invoice_date + 0 = 0.  The repo's own validator
admits credit_days = 0 (validation.middleware: integer credit_days 0 365),
so the claim matches the intent and the code has a truthiness slip. -/
theorem update_with_zero_credit_days_skips_due_date :
    (updateInwardBill dbC7 1 updC7).map (fun d2 =>
      d2.bills.map (fun b => (b.invoice_date, b.credit_days, b.due_date)))
      = .ok [((0 : Int), (0 : Int), (30 : Int))] ∧
    ¬ ((30 : Int) = 0 + 0) := by
  exact ⟨rfl, by decide⟩

/-- A submitted (non-draft) proposal with two items, created by user 5. -/
def dbC9 : DB :=
  { bills := [], outward := [],
    proposals := [{ id := 1, status := "submitted", created_by := 5, total_amount := 500 }],
    items := [{ id := 1, proposal_id := 1, bill_id := 1, proposed_amount := 200,
                accounts_status := "pending", accounts_amount := 0,
                owner_status := "pending", owner_amount := 0, status := "proposed" },
              { id := 2, proposal_id := 1, bill_id := 2, proposed_amount := 300,
                accounts_status := "pending", accounts_amount := 0,
                owner_status := "pending", owner_amount := 0, status := "proposed" }],
    payments := [], details := [] }

/-- Claim C9: when deletion of a non-draft proposal fails, the proposal and
all of its items are supposed to remain unchanged.  The handler deletes the
items before the guarded proposal delete and the transaction commits on
normal return, so deleting a submitted proposal reports failure (the 400
response) yet removes both items while the proposal row survives: the spec
(delete cascades only with the draft proposal; side effects transactional)
is the intent and the code is a slip. -/
theorem failed_delete_still_removes_items :
    (deleteProposal dbC9 ⟨5, "purchase"⟩ 1).1 = false ∧
    (deleteProposal dbC9 ⟨5, "purchase"⟩ 1).2.items = [] ∧
    (deleteProposal dbC9 ⟨5, "purchase"⟩ 1).2.proposals.map (fun p => p.id) = [1] := by
  exact ⟨by decide, by decide, by decide⟩

/-- A draft proposal created by user 2. -/
def dbC10 : DB :=
  { bills := [], outward := [],
    proposals := [{ id := 1, status := "draft", created_by := 2, total_amount := 100 }],
    items := [], payments := [], details := [] }

/-- Claim C10, counterexample: the claim says an owner who is not the
creator can submit a draft proposal.  The UPDATE of the submit handler
requires created_by to be the caller, with no owner override, so the
submission by owner user 7 of the draft proposal created by user 2 fails. -/
theorem owner_noncreator_submit_fails :
    submitProposal dbC10 ⟨7, "owner"⟩ 1 = .error "Cannot submit this proposal" := by
  rfl

/-- Claim C10, amended: for a draft proposal, submission by a caller of
role purchase or owner succeeds exactly when the caller is the creating
user (an owner who is not the creator cannot submit), transitioning the
proposal to submitted; for a proposal in any other status, submission fails
and the proposal is unchanged. -/
theorem submit_succeeds_iff_creator (db : DB) (user : User) (pid : Nat)
    (p : Proposal) (hp : p ∈ db.proposals) (hid : p.id = pid)
    (hnd : keysNodup (fun q => q.id) db.proposals)
    (hrole : user.role = "purchase" ∨ user.role = "owner") :
    (p.status = "draft" → user.id = p.created_by →
      ∃ db2, submitProposal db user pid = .ok db2 ∧
        ∀ q ∈ db2.proposals, q.id = pid → q.status = "submitted") ∧
    (p.status = "draft" → user.id ≠ p.created_by →
      submitProposal db user pid = .error "Cannot submit this proposal") ∧
    (p.status ≠ "draft" →
      submitProposal db user pid = .error "Cannot submit this proposal") := by
  have hroleb : (!(user.role == "purchase" || user.role == "owner")) = false := by
    rcases hrole with h | h <;> simp [h]
  have keyeq : ∀ q ∈ db.proposals, q.id = pid → q = p := by
    intro q hq hqid
    apply mem_eq_of_keysNodup (fun r => r.id) hnd hq hp
    show q.id = p.id
    rw [hqid, hid]
  refine ⟨?_, ?_, ?_⟩
  · intro hdraft hcreator
    have hmatch : (db.proposals.any (fun q =>
        q.id == pid && q.status == "draft" && q.created_by == user.id)) = true := by
      rw [List.any_eq_true]
      exact ⟨p, hp, by simp [hid, hdraft, hcreator.symm]⟩
    refine ⟨{ db with proposals := db.proposals.map (fun q =>
      if q.id == pid && q.status == "draft" && q.created_by == user.id then
        { q with status := "submitted" } else q) }, ?_, ?_⟩
    · simp only [submitProposal, hroleb, Bool.false_eq_true, if_false, hmatch, if_true]
    · intro q hq hqid
      simp only [List.mem_map] at hq
      obtain ⟨q0, hq0, hq0eq⟩ := hq
      by_cases hc : (q0.id == pid && q0.status == "draft" && q0.created_by == user.id) = true
      · rw [if_pos hc] at hq0eq
        rw [← hq0eq]
      · rw [if_neg hc] at hq0eq
        subst hq0eq
        have : q0 = p := keyeq q0 hq0 hqid
        subst this
        exact absurd (by simp [hid, hdraft, hcreator.symm]) hc
  · intro hdraft hnc
    have hmatch : (db.proposals.any (fun q =>
        q.id == pid && q.status == "draft" && q.created_by == user.id)) = false := by
      rw [Bool.eq_false_iff, ne_eq, List.any_eq_true]
      rintro ⟨q, hq, hqb⟩
      simp only [Bool.and_eq_true, beq_iff_eq] at hqb
      have : q = p := keyeq q hq hqb.1.1
      subst this
      exact hnc (hqb.2 ▸ rfl)
    simp only [submitProposal, hroleb, Bool.false_eq_true, if_false, hmatch]
  · intro hnd2
    have hmatch : (db.proposals.any (fun q =>
        q.id == pid && q.status == "draft" && q.created_by == user.id)) = false := by
      rw [Bool.eq_false_iff, ne_eq, List.any_eq_true]
      rintro ⟨q, hq, hqb⟩
      simp only [Bool.and_eq_true, beq_iff_eq] at hqb
      have : q = p := keyeq q hq hqb.1.1
      subst this
      exact hnd2 hqb.1.2
    simp only [submitProposal, hroleb, Bool.false_eq_true, if_false, hmatch]

/-- Witness for the amended C10 theorem: the creating purchase user 2 can
submit the draft proposal of dbC10, a non-creator cannot, and the theorem's
hypotheses hold at this state. -/
theorem submit_succeeds_iff_creator_witness :
    ∃ db2, submitProposal dbC10 ⟨2, "purchase"⟩ 1 = .ok db2 ∧
      ∀ q ∈ db2.proposals, q.id = 1 → q.status = "submitted" := by
  exact (submit_succeeds_iff_creator dbC10 ⟨2, "purchase"⟩ 1
    { id := 1, status := "draft", created_by := 2, total_amount := 100 }
    (by decide) (by decide) (by decide) (Or.inl rfl)).1 rfl rfl

/-! ## Receivables ageing: bucket exactness -/

theorem bucket_pointwise (t d x : Int) :
    (if condCurrent t d then x else 0) + (if cond1to15 t d then x else 0) +
    (if cond16to21 t d then x else 0) + (if cond22to30 t d then x else 0) +
    (if cond30plus t d then x else 0) = x := by
  simp only [condCurrent, cond1to15, cond16to21, cond22to30, cond30plus]
  split_ifs <;> simp_all <;> omega

theorem sum_five_split (l : List OutwardBill) (t : Int) :
    ((l.map (fun b => if condCurrent t b.due_date then b.amount - b.collected_amount else 0)).sum +
     (l.map (fun b => if cond1to15 t b.due_date then b.amount - b.collected_amount else 0)).sum +
     (l.map (fun b => if cond16to21 t b.due_date then b.amount - b.collected_amount else 0)).sum +
     (l.map (fun b => if cond22to30 t b.due_date then b.amount - b.collected_amount else 0)).sum +
     (l.map (fun b => if cond30plus t b.due_date then b.amount - b.collected_amount else 0)).sum) =
    (l.map (fun b => b.amount - b.collected_amount)).sum := by
  induction l with
  | nil => simp
  | cons b l ih =>
    simp only [List.map_cons, List.sum_cons]
    have h := bucket_pointwise t b.due_date (b.amount - b.collected_amount)
    omega

/-- Claim C8: over the non-cancelled, non-paid receivable bills, the five
ageing bucket conditions are mutually exclusive and exhaustive (every due
date contributes to exactly one bucket), the boundaries are inclusive at
the upper end of each bucket (due = today - 15 lands in 1 to 15,
today - 16 and today - 21 in 16 to 21, today - 22 and today - 30 in
22 to 30, today - 31 in over 30), and the five bucket sums add up to the
total outstanding. -/
theorem receivables_ageing_bucket_exactness (bills : List OutwardBill) (t : Int) :
    (∀ d : Int,
      (if condCurrent t d then (1 : Int) else 0) + (if cond1to15 t d then 1 else 0) +
      (if cond16to21 t d then 1 else 0) + (if cond22to30 t d then 1 else 0) +
      (if cond30plus t d then 1 else 0) = 1) ∧
    (cond1to15 t (t - 15) = true ∧ cond16to21 t (t - 16) = true ∧
     cond16to21 t (t - 21) = true ∧ cond22to30 t (t - 22) = true ∧
     cond22to30 t (t - 30) = true ∧ cond30plus t (t - 31) = true) ∧
    (bucketSum bills (condCurrent t) + bucketSum bills (cond1to15 t) +
     bucketSum bills (cond16to21 t) + bucketSum bills (cond22to30 t) +
     bucketSum bills (cond30plus t) = totalOutstanding bills) := by
  refine ⟨fun d => bucket_pointwise t d 1, ?_, ?_⟩
  · refine ⟨?_, ?_, ?_, ?_, ?_, ?_⟩ <;>
      simp only [cond1to15, cond16to21, cond22to30, cond30plus,
        Bool.and_eq_true, decide_eq_true_eq] <;>
      omega
  · simp only [bucketSum, totalOutstanding]
    exact sum_five_split (bills.filter recvActive) t

/-! ## Available-bills eligibility -/

theorem billBlocked_iff (db : DB) (bid : Nat) :
    billBlocked db bid = true ↔
      ∃ pi ∈ db.items, pi.bill_id = bid ∧
        (∃ p ∈ db.proposals, p.id = pi.proposal_id ∧
          p.status ≠ "rejected" ∧ p.status ≠ "completed") ∧
        pi.status ≠ "owner_rejected" ∧ pi.status ≠ "paid" := by
  simp only [billBlocked, List.any_eq_true, Bool.and_eq_true, beq_iff_eq,
    Bool.not_eq_eq_eq_not, Bool.not_true, Bool.or_eq_false_iff, beq_eq_false_iff_ne, ne_eq]
  tauto

/-- Claim C6: the available-bills query returns a payable bill exactly when
it is active, not fully paid, and no proposal item for the bill sits on a
non-terminal proposal (status outside rejected and completed) with a
non-terminal item status (outside owner_rejected and paid); a bill with an
open non-terminal item is excluded and becomes eligible again once that
item is owner_rejected or its proposal reaches a terminal status. -/
theorem available_bills_iff (db : DB) (ib : InwardBill) :
    ib ∈ availableBills db ↔
      (ib ∈ db.bills ∧ ib.status = "active" ∧ ib.payment_status ≠ "paid" ∧
       ¬ ∃ pi ∈ db.items, pi.bill_id = ib.id ∧
          (∃ p ∈ db.proposals, p.id = pi.proposal_id ∧
            p.status ≠ "rejected" ∧ p.status ≠ "completed") ∧
          pi.status ≠ "owner_rejected" ∧ pi.status ≠ "paid") := by
  have hbb := billBlocked_iff db ib.id
  simp only [availableBills, List.mem_filter, Bool.and_eq_true, beq_iff_eq,
    bne_iff_ne, ne_eq, Bool.not_eq_eq_eq_not, Bool.not_true] at *
  rw [Bool.eq_false_iff, ne_eq, hbb]
  tauto

/-! ## Owner action: resulting proposal status -/

theorem ownerNewStatus_all_approve (reqs : List ActionReq) (hne : reqs ≠ [])
    (hall : ∀ r ∈ reqs, r.action = "approve") :
    ownerNewStatus reqs = "approved" := by
  obtain ⟨r0, hr0⟩ := List.exists_mem_of_ne_nil reqs hne
  have hA : (reqs.any (fun r => r.action == "approve")) = true := by
    rw [List.any_eq_true]
    exact ⟨r0, hr0, by simp [hall r0 hr0]⟩
  have hD : (reqs.any (fun r => r.action == "defer")) = false := by
    rw [Bool.eq_false_iff, ne_eq, List.any_eq_true]
    rintro ⟨r, hr, hb⟩
    rw [hall r hr] at hb
    simp at hb
  simp [ownerNewStatus, hA, hD]

theorem ownerNewStatus_mixed (reqs : List ActionReq)
    (hA2 : ∃ r ∈ reqs, r.action = "approve") (hD2 : ∃ r ∈ reqs, r.action = "defer") :
    ownerNewStatus reqs = "partial_approved" := by
  obtain ⟨ra, hra, hrae⟩ := hA2
  obtain ⟨rd, hrd, hrde⟩ := hD2
  have hA : (reqs.any (fun r => r.action == "approve")) = true := by
    rw [List.any_eq_true]
    exact ⟨ra, hra, by simp [hrae]⟩
  have hD : (reqs.any (fun r => r.action == "defer")) = true := by
    rw [List.any_eq_true]
    exact ⟨rd, hrd, by simp [hrde]⟩
  simp [ownerNewStatus, hA, hD]

theorem ownerNewStatus_none (reqs : List ActionReq)
    (hA2 : ¬ ∃ r ∈ reqs, r.action = "approve") :
    ownerNewStatus reqs = "rejected" := by
  have hA : (reqs.any (fun r => r.action == "approve")) = false := by
    rw [Bool.eq_false_iff, ne_eq, List.any_eq_true]
    rintro ⟨r, hr, hb⟩
    exact hA2 ⟨r, hr, by simpa using hb⟩
  simp [ownerNewStatus, hA]

/-- Claim C4: for an owner action whose decisions cover all items of the
proposal, the proposal's resulting status is approved when every decided
item was approved and none deferred, partial_approved when at least one was
approved and at least one deferred, and rejected when none was approved
(including the all-deferred case, which falls into the final else
branch). -/
theorem owner_action_proposal_status (db : DB) (uid pid : Nat)
    (reqs : List ActionReq) (hne : reqs ≠ [])
    (hvalid : ∀ r ∈ reqs, r.action = "approve" ∨ r.action = "defer" ∨ r.action = "reject")
    (hcov : ∀ pi ∈ db.items, pi.proposal_id = pid → ∃ r ∈ reqs, r.item_id = pi.id) :
    ∃ db2, ownerAction db uid pid reqs = .ok db2 ∧
      ((∀ r ∈ reqs, r.action = "approve") →
        ∀ q ∈ db2.proposals, q.id = pid → q.status = "approved") ∧
      (((∃ r ∈ reqs, r.action = "approve") ∧ (∃ r ∈ reqs, r.action = "defer")) →
        ∀ q ∈ db2.proposals, q.id = pid → q.status = "partial_approved") ∧
      ((¬ ∃ r ∈ reqs, r.action = "approve") →
        ∀ q ∈ db2.proposals, q.id = pid → q.status = "rejected") := by
  have hinv : (reqs.any (fun r =>
      !(r.action == "approve" || r.action == "defer" || r.action == "reject"))) = false := by
    rw [Bool.eq_false_iff, ne_eq, List.any_eq_true]
    rintro ⟨r, hr, hb⟩
    rcases hvalid r hr with h | h | h <;> simp [h] at hb
  have hstatus : ∀ st : String, ownerNewStatus reqs = st →
      ∀ q ∈ (db.proposals.map (fun p =>
        if p.id == pid then { p with status := ownerNewStatus reqs } else p)),
        q.id = pid → q.status = st := by
    intro st hst q hq hqid
    simp only [List.mem_map] at hq
    obtain ⟨q0, hq0, hq0eq⟩ := hq
    by_cases hc : (q0.id == pid) = true
    · rw [if_pos hc] at hq0eq
      rw [← hq0eq, ← hst]
    · rw [if_neg hc] at hq0eq
      subst hq0eq
      exact absurd (by simp [hqid]) hc
  refine ⟨{ db with
      items := reqs.foldl ownerApply db.items,
      proposals := db.proposals.map (fun p =>
        if p.id == pid then { p with status := ownerNewStatus reqs } else p) },
    ?_, ?_, ?_, ?_⟩
  · simp only [ownerAction, hinv, Bool.false_eq_true, if_false]
  · intro hall
    exact hstatus "approved" (ownerNewStatus_all_approve reqs hne hall)
  · intro hmix
    exact hstatus "partial_approved" (ownerNewStatus_mixed reqs hmix.1 hmix.2)
  · intro hnone
    exact hstatus "rejected" (ownerNewStatus_none reqs hnone)

/-- A proposal under review with two items, for exercising the owner
action. -/
def dbC4 : DB :=
  { bills := [], outward := [],
    proposals := [{ id := 1, status := "under_review", created_by := 5, total_amount := 700 }],
    items := [{ id := 1, proposal_id := 1, bill_id := 1, proposed_amount := 300,
                accounts_status := "approved", accounts_amount := 300,
                owner_status := "pending", owner_amount := 0, status := "accounts_approved" },
              { id := 2, proposal_id := 1, bill_id := 2, proposed_amount := 400,
                accounts_status := "approved", accounts_amount := 400,
                owner_status := "pending", owner_amount := 0, status := "accounts_approved" }],
    payments := [], details := [] }

/-- Witness for the C4 theorem: an owner action approving one item and
deferring the other, covering both items of dbC4, yields the
partial_approved status. -/
theorem owner_action_proposal_status_witness :
    ∃ db2, ownerAction dbC4 9 1
        [⟨1, "approve", 300, ""⟩, ⟨2, "defer", 0, "later"⟩] = .ok db2 ∧
      ((∀ r ∈ [(⟨1, "approve", 300, ""⟩ : ActionReq), ⟨2, "defer", 0, "later"⟩],
          r.action = "approve") →
        ∀ q ∈ db2.proposals, q.id = 1 → q.status = "approved") ∧
      (((∃ r ∈ [(⟨1, "approve", 300, ""⟩ : ActionReq), ⟨2, "defer", 0, "later"⟩],
          r.action = "approve") ∧
        (∃ r ∈ [(⟨1, "approve", 300, ""⟩ : ActionReq), ⟨2, "defer", 0, "later"⟩],
          r.action = "defer")) →
        ∀ q ∈ db2.proposals, q.id = 1 → q.status = "partial_approved") ∧
      ((¬ ∃ r ∈ [(⟨1, "approve", 300, ""⟩ : ActionReq), ⟨2, "defer", 0, "later"⟩],
          r.action = "approve") →
        ∀ q ∈ db2.proposals, q.id = 1 → q.status = "rejected") := by
  exact owner_action_proposal_status dbC4 9 1
    [⟨1, "approve", 300, ""⟩, ⟨2, "defer", 0, "later"⟩]
    (by decide) (by decide) (by decide)

/-! ## Payment batch generation -/

theorem find?_pred_of_keysNodup {α : Type} (key : α → Nat) {l : List α}
    (hnd : keysNodup key l) (pred : α → Bool) (k : Nat)
    (himp : ∀ x, pred x = true → key x = k)
    {p : α} (hp : p ∈ l) (hpk : key p = k) (hpp : pred p = true) :
    l.find? pred = some p := by
  induction l with
  | nil => cases hp
  | cons x xs ih =>
    unfold keysNodup at hnd
    simp only [List.map_cons, List.nodup_cons] at hnd
    rw [List.find?]
    by_cases hx : pred x = true
    · rw [hx]
      rcases List.mem_cons.mp hp with rfl | hp2
      · rfl
      · exact absurd ((himp x hx).trans hpk.symm ▸ List.mem_map_of_mem key hp2) hnd.1
    · rw [Bool.eq_false_iff.mpr hx]
      rcases List.mem_cons.mp hp with rfl | hp2
      · exact absurd hpp hx
      · exact ih hnd.2 hp2

theorem mkDetails_pairs (payId did0 : Nat) (l : List ProposalItem) :
    (mkDetails payId did0 l).map (fun d => (d.proposal_item_id, d.amount)) =
      l.map (fun pi => (some pi.id, pi.owner_amount)) := by
  induction l generalizing did0 with
  | nil => rfl
  | cons pi rest ih => simp [mkDetails, ih]

theorem approvedItems_eq_of_fk (db : DB) (pid : Nat)
    (hfk : ∀ pi ∈ db.items, ∃ b ∈ db.bills, b.id = pi.bill_id) :
    approvedItems db pid = db.items.filter (fun pi =>
      pi.proposal_id == pid && pi.owner_status == "approved") := by
  unfold approvedItems
  apply List.filter_congr
  intro pi hpi
  obtain ⟨b, hb, hbid⟩ := hfk pi hpi
  have hany : (db.bills.any (fun b2 => b2.id == pi.bill_id)) = true := by
    rw [List.any_eq_true]
    exact ⟨b, hb, by simp [hbid]⟩
  rw [hany, Bool.and_true]

/-- The payment row the ok branch of createFromProposal inserts. -/
def batchPayment (db : DB) (pid bkId npid : Nat) : Payment :=
  { id := npid, proposal_id := pid,
    total_amount := ((approvedItems db pid).map (fun pi => pi.owner_amount)).sum,
    bank_account_id := bkId, status := "pending" }

/-- The state the ok branch of createFromProposal produces. -/
def batchResult (db : DB) (pid bkId npid ndid : Nat) : DB :=
  { db with
    payments := db.payments ++ [batchPayment db pid bkId npid],
    details := db.details ++ mkDetails npid ndid (approvedItems db pid),
    proposals := db.proposals.map (fun q =>
      if q.id == pid then { q with status := "completed" } else q) }

/-- Claim C2: for a proposal in approved or partial_approved with at least
one owner-approved item, batch generation creates exactly one payment whose
total_amount is the sum of owner_amount over those items, exactly one
payment detail per item carrying the item's owner_amount, and sets the
proposal status to completed; with no owner-approved item it fails with the
no-approved-items error (the spec's PreconditionError kind) and creates
nothing. -/
theorem create_from_proposal_batch (db : DB) (uid pid bkId npid ndid : Nat)
    (p : Proposal) (hp : p ∈ db.proposals) (hid : p.id = pid)
    (hst : p.status = "approved" ∨ p.status = "partial_approved")
    (hnd : keysNodup (fun q => q.id) db.proposals)
    (hfk : ∀ pi ∈ db.items, ∃ b ∈ db.bills, b.id = pi.bill_id) :
    ((db.items.filter (fun pi => pi.proposal_id == pid && pi.owner_status == "approved")) ≠ [] →
      ∃ db2 pay, createFromProposal db uid pid bkId npid ndid = .ok (db2, pay) ∧
        db2.payments = db.payments ++ [pay] ∧
        pay.total_amount = ((db.items.filter (fun pi =>
          pi.proposal_id == pid && pi.owner_status == "approved")).map
            (fun pi => pi.owner_amount)).sum ∧
        db2.details = db.details ++ mkDetails npid ndid (db.items.filter (fun pi =>
          pi.proposal_id == pid && pi.owner_status == "approved")) ∧
        (mkDetails npid ndid (db.items.filter (fun pi =>
          pi.proposal_id == pid && pi.owner_status == "approved"))).map
            (fun d => (d.proposal_item_id, d.amount)) =
          (db.items.filter (fun pi =>
            pi.proposal_id == pid && pi.owner_status == "approved")).map
              (fun pi => (some pi.id, pi.owner_amount)) ∧
        (∀ q ∈ db2.proposals, q.id = pid → q.status = "completed")) ∧
    ((db.items.filter (fun pi => pi.proposal_id == pid && pi.owner_status == "approved")) = [] →
      createFromProposal db uid pid bkId npid ndid = .error .noApprovedItems ∧
      createFailureKind db pid = "PreconditionError") := by
  have heq := approvedItems_eq_of_fk db pid hfk
  have hpp : (fun q : Proposal =>
      q.id == pid && (q.status == "approved" || q.status == "partial_approved")) p = true := by
    rcases hst with h | h <;> simp [hid, h]
  have hfind : db.proposals.find? (fun q =>
      q.id == pid && (q.status == "approved" || q.status == "partial_approved")) = some p := by
    apply find?_pred_of_keysNodup (fun q => q.id) hnd _ pid _ hp hid hpp
    intro x hx
    simp only [Bool.and_eq_true, beq_iff_eq] at hx
    exact hx.1
  constructor
  · intro hA
    have hempty : (approvedItems db pid).isEmpty = false := by
      rw [heq]
      cases h : db.items.filter (fun pi =>
          pi.proposal_id == pid && pi.owner_status == "approved") with
      | nil => exact absurd h hA
      | cons a l => rfl
    refine ⟨batchResult db pid bkId npid ndid, batchPayment db pid bkId npid,
      ?_, ?_, ?_, ?_, ?_, ?_⟩
    · unfold createFromProposal batchResult batchPayment
      rw [hfind]
      simp only [hempty, Bool.false_eq_true, if_false]
    · simp only [batchResult]
    · simp only [batchPayment, heq]
    · simp only [batchResult, heq]
    · exact mkDetails_pairs npid ndid _
    · intro q hq hqid
      simp only [batchResult, List.mem_map] at hq
      obtain ⟨q0, hq0, hq0eq⟩ := hq
      by_cases hc : (q0.id == pid) = true
      · rw [if_pos hc] at hq0eq
        rw [← hq0eq]
      · rw [if_neg hc] at hq0eq
        subst hq0eq
        exact absurd (by simp [hqid]) hc
  · intro hA
    have hempty : (approvedItems db pid).isEmpty = true := by
      rw [heq, hA]
      rfl
    constructor
    · unfold createFromProposal
      rw [hfind]
      simp only [hempty, if_true]
    · unfold createFailureKind
      have hnone : (db.proposals.any (fun q => q.id == pid && q.status == "completed")) = false := by
        rw [Bool.eq_false_iff, ne_eq, List.any_eq_true]
        rintro ⟨q, hq, hqb⟩
        simp only [Bool.and_eq_true, beq_iff_eq] at hqb
        have : q = p := mem_eq_of_keysNodup (fun r => r.id) hnd hq hp (by
          show q.id = p.id
          rw [hqb.1, hid])
        subst this
        rcases hst with h | h <;> rw [h] at hqb <;> exact absurd hqb.2 (by decide)
      rw [hnone]
      rfl

/-- An approved proposal with two owner-approved items over two bills. -/
def dbC2 : DB :=
  { bills := [{ id := 1, vendor_id := 1, bill_number := "B1", invoice_date := 0,
                receiving_date := 0, amount := 400, paid_amount := 0,
                credit_days := 30, due_date := 30, status := "active",
                payment_status := "open", version := 0, cancel_reason := none },
              { id := 2, vendor_id := 2, bill_number := "B2", invoice_date := 0,
                receiving_date := 0, amount := 350, paid_amount := 0,
                credit_days := 15, due_date := 15, status := "active",
                payment_status := "open", version := 0, cancel_reason := none }],
    outward := [],
    proposals := [{ id := 1, status := "approved", created_by := 5, total_amount := 750 }],
    items := [{ id := 1, proposal_id := 1, bill_id := 1, proposed_amount := 400,
                accounts_status := "approved", accounts_amount := 300,
                owner_status := "approved", owner_amount := 300,
                status := "owner_approved" },
              { id := 2, proposal_id := 1, bill_id := 2, proposed_amount := 350,
                accounts_status := "approved", accounts_amount := 350,
                owner_status := "approved", owner_amount := 350,
                status := "owner_approved" }],
    payments := [], details := [] }

/-- Witness for the C2 theorem: batch generation over dbC2 creates one
payment of total 650 = 300 + 350 with one detail per approved item and
completes the proposal. -/
theorem create_from_proposal_batch_witness :
    ∃ db2 pay, createFromProposal dbC2 9 1 77 10 100 = .ok (db2, pay) ∧
      db2.payments = dbC2.payments ++ [pay] ∧
      pay.total_amount = ((dbC2.items.filter (fun pi =>
        pi.proposal_id == 1 && pi.owner_status == "approved")).map
          (fun pi => pi.owner_amount)).sum ∧
      db2.details = dbC2.details ++ mkDetails 10 100 (dbC2.items.filter (fun pi =>
        pi.proposal_id == 1 && pi.owner_status == "approved")) ∧
      (mkDetails 10 100 (dbC2.items.filter (fun pi =>
        pi.proposal_id == 1 && pi.owner_status == "approved"))).map
          (fun d => (d.proposal_item_id, d.amount)) =
        (dbC2.items.filter (fun pi =>
          pi.proposal_id == 1 && pi.owner_status == "approved")).map
            (fun pi => (some pi.id, pi.owner_amount)) ∧
      (∀ q ∈ db2.proposals, q.id = 1 → q.status = "completed") := by
  exact (create_from_proposal_batch dbC2 9 1 77 10 100
    { id := 1, status := "approved", created_by := 5, total_amount := 750 }
    (by decide) (by decide) (Or.inl rfl) (by decide) (by decide)).1 (by decide)

/-! ## Only batch generation completes a proposal -/

/-- A successful invocation of any modelled operation other than
createFromProposal. -/
inductive NonBatchStep : DB → DB → Prop
  | createBill (db : DB) (uid nid vid : Nat) (bn : String) (inv rcv amt cd : Int) :
      NonBatchStep db (createInwardBill db uid nid vid bn inv rcv amt cd).1
  | updateBill (db db2 : DB) (bid : Nat) (upd : UpdateBillReq) :
      updateInwardBill db bid upd = .ok db2 → NonBatchStep db db2
  | cancelBill (db db2 : DB) (uid bid : Nat) (reason : String) :
      cancelInwardBill db uid bid reason = .ok db2 → NonBatchStep db db2
  | submit (db db2 : DB) (user : User) (pid : Nat) :
      submitProposal db user pid = .ok db2 → NonBatchStep db db2
  | accounts (db db2 : DB) (uid pid : Nat) (reqs : List ActionReq) :
      accountsAction db uid pid reqs = .ok db2 → NonBatchStep db db2
  | owner (db db2 : DB) (uid pid : Nat) (reqs : List ActionReq) :
      ownerAction db uid pid reqs = .ok db2 → NonBatchStep db db2
  | deleteP (db : DB) (user : User) (pid : Nat) :
      NonBatchStep db (deleteProposal db user pid).2
  | utr (db : DB) (pid : Nat) (entries : List UtrEntry) :
      NonBatchStep db (updateUtr db pid entries)

theorem completed_origin_mapStatus (l : List Proposal) (cond : Proposal → Bool)
    (st : String) (hst2 : st ≠ "completed") :
    ∀ p2 ∈ l.map (fun q => if cond q then { q with status := st } else q),
      p2.status = "completed" → ∃ p1 ∈ l, p1.id = p2.id ∧ p1.status = "completed" := by
  intro p2 hp2 hc
  simp only [List.mem_map] at hp2
  obtain ⟨q0, hq0, hq0eq⟩ := hp2
  by_cases hcnd : cond q0 = true
  · rw [if_pos hcnd] at hq0eq
    rw [← hq0eq] at hc
    exact absurd hc hst2
  · rw [if_neg hcnd] at hq0eq
    subst hq0eq
    exact ⟨q0, hq0, rfl, hc⟩

theorem ownerNewStatus_ne_completed (reqs : List ActionReq) :
    ownerNewStatus reqs ≠ "completed" := by
  by_cases hA : (reqs.any fun r => r.action == "approve") = true <;>
    by_cases hD : (reqs.any fun r => r.action == "defer") = true <;>
      simp [ownerNewStatus, hA, hD]

theorem updateInwardBill_proposals (db : DB) (bid : Nat) (upd : UpdateBillReq)
    (db2 : DB) (h : updateInwardBill db bid upd = .ok db2) :
    db2.proposals = db.proposals := by
  unfold updateInwardBill at h
  cases hfind : db.bills.find? (fun b => b.id == bid) with
  | none =>
    rw [hfind] at h
    exact absurd h (by simp)
  | some b =>
    rw [hfind] at h
    dsimp only at h
    split_ifs at h
    all_goals first
      | (injection h with h2
         rw [← h2])
      | injection h

theorem cancelInwardBill_proposals (db : DB) (uid bid : Nat) (reason : String)
    (db2 : DB) (h : cancelInwardBill db uid bid reason = .ok db2) :
    db2.proposals = db.proposals := by
  unfold cancelInwardBill at h
  by_cases hr : (reason == "") = true
  · rw [if_pos hr] at h
    injection h
  · rw [if_neg hr] at h
    cases hfind : db.bills.find? (fun b => b.id == bid) with
    | none =>
      rw [hfind] at h
      injection h
    | some b =>
      rw [hfind] at h
      dsimp only at h
      split_ifs at h
      all_goals first
        | (injection h with h2
           rw [← h2])
        | injection h

theorem applyUtrEntry_proposals (db : DB) (pid : Nat) (e : UtrEntry) :
    (applyUtrEntry db pid e).proposals = db.proposals := by
  unfold applyUtrEntry
  dsimp only
  split
  · rfl
  · split_ifs <;> rfl

theorem foldlUtr_proposals (entries : List UtrEntry) (db : DB) (pid : Nat) :
    (entries.foldl (fun acc e => applyUtrEntry acc pid e) db).proposals = db.proposals := by
  induction entries generalizing db with
  | nil => rfl
  | cons e es ih => rw [List.foldl_cons, ih, applyUtrEntry_proposals]

theorem updateUtr_proposals (db : DB) (pid : Nat) (entries : List UtrEntry) :
    (updateUtr db pid entries).proposals = db.proposals := by
  exact foldlUtr_proposals entries db pid

/-- Every successful non-batch operation leaves the set of completed
proposals a subset of what it was: a proposal completed afterwards was
already completed before. -/
theorem nonbatch_preserves_completed (db1 db2 : DB) (hs : NonBatchStep db1 db2) :
    ∀ p2 ∈ db2.proposals, p2.status = "completed" →
      ∃ p1 ∈ db1.proposals, p1.id = p2.id ∧ p1.status = "completed" := by
  induction hs with
  | createBill uid nid vid bn inv rcv amt cd =>
    intro p2 hp2 hst
    exact ⟨p2, hp2, rfl, hst⟩
  | updateBill d2 bid upd h =>
    intro p2 hp2 hst
    rw [updateInwardBill_proposals db1 bid upd d2 h] at hp2
    exact ⟨p2, hp2, rfl, hst⟩
  | cancelBill d2 uid bid reason h =>
    intro p2 hp2 hst
    rw [cancelInwardBill_proposals db1 uid bid reason d2 h] at hp2
    exact ⟨p2, hp2, rfl, hst⟩
  | submit d2 user pid h =>
    unfold submitProposal at h
    dsimp only at h
    split_ifs at h
    all_goals first
      | (injection h with h3
         rw [← h3]
         exact completed_origin_mapStatus db1.proposals _ "submitted" (by decide))
      | injection h
  | accounts d2 uid pid reqs h =>
    unfold accountsAction at h
    split_ifs at h
    all_goals first
      | (injection h with h3
         rw [← h3]
         exact completed_origin_mapStatus db1.proposals _ "under_review" (by decide))
      | injection h
  | owner d2 uid pid reqs h =>
    unfold ownerAction at h
    split_ifs at h
    all_goals first
      | (injection h with h3
         rw [← h3]
         exact completed_origin_mapStatus db1.proposals _ (ownerNewStatus reqs)
           (ownerNewStatus_ne_completed reqs))
      | injection h
  | deleteP user pid =>
    intro p2 hp2 hst
    unfold deleteProposal at hp2
    split_ifs at hp2
    · exact ⟨p2, hp2, rfl, hst⟩
    · exact ⟨p2, List.mem_of_mem_filter hp2, rfl, hst⟩
  | utr pid entries =>
    intro p2 hp2 hst
    rw [updateUtr_proposals db1 pid entries] at hp2
    exact ⟨p2, hp2, rfl, hst⟩

/-- Claim C3: batch generation against an already-completed proposal fails
(the generic not-approved error of the handler, classified by the spec's
taxonomy as ConflictError) and, because the operation returns an error
instead of a new state, creates no payment and no payment detail; and no
modelled operation other than createFromProposal can make a proposal
completed. -/
theorem completed_proposal_conflict (db : DB) (uid pid bkId npid ndid : Nat)
    (p : Proposal) (hp : p ∈ db.proposals) (hid : p.id = pid)
    (hnd : keysNodup (fun q => q.id) db.proposals)
    (hcompleted : p.status = "completed") :
    (createFromProposal db uid pid bkId npid ndid = .error .proposalNotApproved ∧
     createFailureKind db pid = "ConflictError") ∧
    (∀ da dbb : DB, NonBatchStep da dbb → ∀ p2 ∈ dbb.proposals, p2.status = "completed" →
      ∃ p1 ∈ da.proposals, p1.id = p2.id ∧ p1.status = "completed") := by
  refine ⟨⟨?_, ?_⟩, fun da dbb hs => nonbatch_preserves_completed da dbb hs⟩
  · have hfind : db.proposals.find? (fun q =>
        q.id == pid && (q.status == "approved" || q.status == "partial_approved")) = none := by
      rw [List.find?_eq_none]
      intro q hq hqb
      simp only [Bool.and_eq_true, Bool.or_eq_true, beq_iff_eq] at hqb
      have : q = p := mem_eq_of_keysNodup (fun r => r.id) hnd hq hp (by
        show q.id = p.id
        rw [hqb.1, hid])
      subst this
      rcases hqb.2 with h | h <;> rw [hcompleted] at h <;> exact absurd h (by decide)
    unfold createFromProposal
    rw [hfind]
  · unfold createFailureKind
    have hany : (db.proposals.any (fun q => q.id == pid && q.status == "completed")) = true := by
      rw [List.any_eq_true]
      exact ⟨p, hp, by simp [hid, hcompleted]⟩
    rw [hany]
    rfl

/-- A completed proposal, for exercising the double-invocation guard. -/
def dbC3 : DB :=
  { bills := [], outward := [],
    proposals := [{ id := 1, status := "completed", created_by := 5, total_amount := 650 }],
    items := [], payments := [], details := [] }

/-- Witness for the C3 theorem: batch generation against the completed
proposal of dbC3 fails with the not-approved error, the spec taxonomy
classifies the failure as a ConflictError, and the preservation property
holds. -/
theorem completed_proposal_conflict_witness :
    (createFromProposal dbC3 9 1 77 10 100 = .error .proposalNotApproved ∧
     createFailureKind dbC3 1 = "ConflictError") ∧
    (∀ da dbb : DB, NonBatchStep da dbb → ∀ p2 ∈ dbb.proposals, p2.status = "completed" →
      ∃ p1 ∈ da.proposals, p1.id = p2.id ∧ p1.status = "completed") := by
  exact completed_proposal_conflict dbC3 9 1 77 10 100
    { id := 1, status := "completed", created_by := 5, total_amount := 650 }
    (by decide) (by decide) (by decide) (by decide)

/-! ## UTR settlement -/

theorem keysNodup_map {α : Type} (key : α → Nat) (f : α → α) (l : List α)
    (hf : ∀ x, key (f x) = key x) (h : keysNodup key l) :
    keysNodup key (l.map f) := by
  unfold keysNodup at *
  rw [List.map_map]
  have hfe : (key ∘ f) = key := funext hf
  rw [hfe]
  exact h

/-- Claim C1: settling one payment detail with a non-empty UTR sets the
detail's utr_number and status confirmed, increments the linked bill's
paid_amount by exactly the detail's amount, marks the originating proposal
item paid, and afterwards the payment's status is confirmed exactly when no
detail under the payment remains without a UTR, and processed otherwise. -/
theorem utr_settlement (db : DB) (pid did : Nat) (u : String) (hu : u ≠ "")
    (d : PaymentDetail) (hd : d ∈ db.details) (hdid : d.id = did) (hdp : d.payment_id = pid)
    (hndD : keysNodup (fun x => x.id) db.details)
    (b : InwardBill) (hb : b ∈ db.bills) (hbid : b.id = d.bill_id)
    (hndB : keysNodup (fun x => x.id) db.bills) :
    (∀ d2 ∈ (updateUtr db pid [⟨did, some u⟩]).details, d2.id = did →
      d2.utr_number = some u ∧ d2.status = "confirmed") ∧
    (∀ b2 ∈ (updateUtr db pid [⟨did, some u⟩]).bills, b2.id = d.bill_id →
      b2.paid_amount = b.paid_amount + d.amount) ∧
    (∀ pi2 ∈ (updateUtr db pid [⟨did, some u⟩]).items, some pi2.id = d.proposal_item_id →
      pi2.status = "paid") ∧
    (∀ pay2 ∈ (updateUtr db pid [⟨did, some u⟩]).payments, pay2.id = pid →
      ((pay2.status = "confirmed" ↔
        ∀ d2 ∈ (updateUtr db pid [⟨did, some u⟩]).details, d2.payment_id = pid →
          hasUtr d2 = true) ∧
       (pay2.status = "processed" ↔
        ¬ ∀ d2 ∈ (updateUtr db pid [⟨did, some u⟩]).details, d2.payment_id = pid →
          hasUtr d2 = true))) := by
  have hcond : (d.id == did && d.payment_id == pid) = true := by
    simp [hdid, hdp]
  have hFpres : ∀ x : PaymentDetail, (utrDetailUpd did pid (some u) x).id = x.id := by
    intro x
    unfold utrDetailUpd
    by_cases hx : (x.id == did && x.payment_id == pid) = true
    · rw [if_pos hx]
    · rw [if_neg hx]
  have hndD2 : keysNodup (fun x => x.id)
      (db.details.map (utrDetailUpd did pid (some u))) :=
    keysNodup_map _ _ _ hFpres hndD
  have hFd : utrDetailUpd did pid (some u) d =
      { d with utr_number := some u, status := "confirmed" } := by
    unfold utrDetailUpd
    rw [if_pos hcond]
  have hfind : (db.details.map (utrDetailUpd did pid (some u))).find?
        (fun x => x.id == did) =
      some { d with utr_number := some u, status := "confirmed" } := by
    rw [← hFd]
    exact find?_key_eq_some (fun x : PaymentDetail => x.id) hndD2
      (List.mem_map_of_mem (utrDetailUpd did pid (some u)) hd) did
      ((hFpres d).trans hdid)
  have hut : utrTruthy (some u) = true := by
    simp [utrTruthy, hu]
  have happ : applyUtrEntry db pid ⟨did, some u⟩ =
      { db with
        details := db.details.map (utrDetailUpd did pid (some u)),
        bills := db.bills.map (fun b2 =>
          if b2.id == d.bill_id then
            { b2 with paid_amount := b2.paid_amount + d.amount } else b2),
        items := db.items.map (fun pi2 =>
          if d.proposal_item_id == some pi2.id then
            { pi2 with status := "paid" } else pi2) } := by
    unfold applyUtrEntry
    dsimp only
    rw [hfind, hut]
    rfl
  have hupd : updateUtr db pid [⟨did, some u⟩] =
      (let db1 := applyUtrEntry db pid ⟨did, some u⟩
       let pendingCount := (db1.details.filter
         (fun x => x.payment_id == pid && !(hasUtr x))).length
       let newStatus := if pendingCount == 0 then "confirmed" else "processed"
       { db1 with payments := db1.payments.map (fun p =>
         if p.id == pid then { p with status := newStatus } else p) }) := by
    rfl
  rw [hupd, happ]
  dsimp only
  refine ⟨?_, ?_, ?_, ?_⟩
  · intro d2 hd2 hd2id
    simp only [List.mem_map] at hd2
    obtain ⟨x, hx, hxeq⟩ := hd2
    unfold utrDetailUpd at hxeq
    by_cases hc : (x.id == did && x.payment_id == pid) = true
    · rw [if_pos hc] at hxeq
      rw [← hxeq]
      exact ⟨rfl, rfl⟩
    · rw [if_neg hc] at hxeq
      subst hxeq
      have hxd : x = d := mem_eq_of_keysNodup (fun y => y.id) hndD hx hd (by
        show x.id = d.id
        rw [hd2id, hdid])
      subst hxd
      exact absurd hcond hc
  · intro b2 hb2 hb2id
    simp only [List.mem_map] at hb2
    obtain ⟨x, hx, hxeq⟩ := hb2
    by_cases hc : (x.id == d.bill_id) = true
    · rw [if_pos hc] at hxeq
      have hxb : x = b := mem_eq_of_keysNodup (fun y => y.id) hndB hx hb (by
        show x.id = b.id
        rw [hbid]
        exact beq_iff_eq.mp hc)
      subst hxb
      rw [← hxeq]
    · rw [if_neg hc] at hxeq
      subst hxeq
      exact absurd (by simp [hb2id]) hc
  · intro pi2 hpi2 hpi2id
    simp only [List.mem_map] at hpi2
    obtain ⟨x, hx, hxeq⟩ := hpi2
    by_cases hc : (d.proposal_item_id == some x.id) = true
    · rw [if_pos hc] at hxeq
      rw [← hxeq]
    · rw [if_neg hc] at hxeq
      subst hxeq
      exact absurd (by simp [← hpi2id]) hc
  · intro pay2 hpay2 hpay2id
    simp only [List.mem_map] at hpay2
    obtain ⟨x, hx, hxeq⟩ := hpay2
    have hxstatus : pay2.status =
        (if ((db.details.map (utrDetailUpd did pid (some u))).filter
            (fun y => y.payment_id == pid && !(hasUtr y))).length == 0
         then "confirmed" else "processed") := by
      by_cases hc : (x.id == pid) = true
      · rw [if_pos hc] at hxeq
        rw [← hxeq]
      · rw [if_neg hc] at hxeq
        subst hxeq
        exact absurd (by simp [hpay2id]) hc
    have hpendIff : (((db.details.map (utrDetailUpd did pid (some u))).filter
          (fun y => y.payment_id == pid && !(hasUtr y))).length = 0) ↔
        (∀ d2 ∈ (db.details.map (utrDetailUpd did pid (some u))),
          d2.payment_id = pid → hasUtr d2 = true) := by
      rw [List.length_eq_zero, List.filter_eq_nil_iff]
      constructor
      · intro hall d2 hd2 hp2
        have hx2 := hall d2 hd2
        simp only [Bool.and_eq_true, beq_iff_eq, Bool.not_eq_true', not_and] at hx2
        have := hx2 hp2
        cases h3 : hasUtr d2
        · exact absurd h3 this
        · rfl
      · intro hall x2 hx2
        simp only [Bool.and_eq_true, beq_iff_eq, Bool.not_eq_true', not_and]
        intro hp2 h3
        rw [hall x2 hx2 hp2] at h3
        cases h3
    by_cases hz : (((db.details.map (utrDetailUpd did pid (some u))).filter
          (fun y => y.payment_id == pid && !(hasUtr y))).length = 0)
    · have hnz : (((db.details.map (utrDetailUpd did pid (some u))).filter
            (fun y => y.payment_id == pid && !(hasUtr y))).length == 0) = true := by
        simpa using hz
      rw [hnz] at hxstatus
      constructor
      · rw [hxstatus]
        simp only [if_true, true_iff]
        exact hpendIff.mp hz
      · rw [hxstatus]
        simp only [if_true]
        constructor
        · intro hcontra
          exact absurd hcontra (by decide)
        · intro hcontra
          exact absurd (hpendIff.mp hz) hcontra
    · have hnz : (((db.details.map (utrDetailUpd did pid (some u))).filter
            (fun y => y.payment_id == pid && !(hasUtr y))).length == 0) = false := by
        simpa using hz
      rw [hnz] at hxstatus
      constructor
      · rw [hxstatus]
        simp only [Bool.false_eq_true, if_false]
        constructor
        · intro hcontra
          exact absurd hcontra (by decide)
        · intro hcontra
          exact absurd (hpendIff.mpr hcontra) hz
      · rw [hxstatus]
        simp only [Bool.false_eq_true, if_false, true_iff]
        intro hcontra
        exact hz (hpendIff.mpr hcontra)

/-- One pending payment with a single pending detail of amount 9500 over a
bill of amount 9500, with its originating proposal item. -/
def dbC1 : DB :=
  { bills := [{ id := 1, vendor_id := 1, bill_number := "B1", invoice_date := 0,
                receiving_date := 0, amount := 9500, paid_amount := 0,
                credit_days := 30, due_date := 30, status := "active",
                payment_status := "open", version := 0, cancel_reason := none }],
    outward := [],
    proposals := [{ id := 1, status := "completed", created_by := 5, total_amount := 9500 }],
    items := [{ id := 1, proposal_id := 1, bill_id := 1, proposed_amount := 10000,
                accounts_status := "approved", accounts_amount := 9500,
                owner_status := "approved", owner_amount := 9500,
                status := "owner_approved" }],
    payments := [{ id := 1, proposal_id := 1, total_amount := 9500,
                   bank_account_id := 1, status := "pending" }],
    details := [{ id := 1, payment_id := 1, bill_id := 1, proposal_item_id := some 1,
                  amount := 9500, utr_number := none, status := "pending" }] }

/-- Witness for the C1 theorem: settling the only detail of dbC1's payment
with UTR UTR9 confirms the detail, adds 9500 to the bill, marks the item
paid, and confirms the payment exactly because no detail remains without a
UTR. -/
theorem utr_settlement_witness :
    (∀ d2 ∈ (updateUtr dbC1 1 [⟨1, some "UTR9"⟩]).details, d2.id = 1 →
      d2.utr_number = some "UTR9" ∧ d2.status = "confirmed") ∧
    (∀ b2 ∈ (updateUtr dbC1 1 [⟨1, some "UTR9"⟩]).bills, b2.id = 1 →
      b2.paid_amount = 0 + 9500) ∧
    (∀ pi2 ∈ (updateUtr dbC1 1 [⟨1, some "UTR9"⟩]).items, some pi2.id = some 1 →
      pi2.status = "paid") ∧
    (∀ pay2 ∈ (updateUtr dbC1 1 [⟨1, some "UTR9"⟩]).payments, pay2.id = 1 →
      ((pay2.status = "confirmed" ↔
        ∀ d2 ∈ (updateUtr dbC1 1 [⟨1, some "UTR9"⟩]).details, d2.payment_id = 1 →
          hasUtr d2 = true) ∧
       (pay2.status = "processed" ↔
        ¬ ∀ d2 ∈ (updateUtr dbC1 1 [⟨1, some "UTR9"⟩]).details, d2.payment_id = 1 →
          hasUtr d2 = true))) := by
  exact utr_settlement dbC1 1 1 "UTR9" (by decide)
    { id := 1, payment_id := 1, bill_id := 1, proposal_item_id := some 1,
      amount := 9500, utr_number := none, status := "pending" }
    (by decide) rfl rfl (by decide)
    { id := 1, vendor_id := 1, bill_number := "B1", invoice_date := 0,
      receiving_date := 0, amount := 9500, paid_amount := 0,
      credit_days := 30, due_date := 30, status := "active",
      payment_status := "open", version := 0, cancel_reason := none }
    (by decide) rfl (by decide)

end GLS
